import Mathlib

/-!
# Verification of the WP Optimizer Pro orchestration core

Shallow embedding of the job-orchestration core of `src/App.tsx`:
the phase state machine of `executeGodMode`, the progress reporter
(`OptimizationProgress`), the bulk scheduler (`executeBulkOptimization`,
`parseBulkUrls`, `processJob`) and the publish decision logic.

External collaborators (content synthesis, the remote content store,
the scoring and HTML utilities in `./utils` and `./fetch-service`) are
out of scope per the spec (§1); the embedding carries their outcomes as
environment data and their functions as environment fields.
-/

set_option maxRecDepth 10000

namespace WPOptimizer

/-! ## Constants (src/App.tsx lines 73-82, 125) -/

def MIN_WORD_COUNT : Nat := 3000
def TARGET_WORD_COUNT : Nat := 4000
def TOTAL_STEPS : Nat := 15

/-! ## Phases and their step indices (PHASE_CONFIG, src/App.tsx lines 105-123) -/

/-- The progress phases of `PHASE_CONFIG`. -/
inductive Phase where
  | idle
  | initializing
  | resolving_post
  | analyzing_existing
  | entity_gap_analysis
  | neuron_analysis
  | reference_discovery
  | outline_generation
  | section_drafts
  | youtube_integration
  | merge_content
  | internal_linking
  | qa_validation
  | final_polish
  | publishing
  | completed
  | failed
  deriving DecidableEq, Repr

/-- The `step` field of `PHASE_CONFIG` for each phase. -/
def Phase.step : Phase → Nat
  | .idle => 0
  | .initializing => 1
  | .resolving_post => 2
  | .analyzing_existing => 3
  | .entity_gap_analysis => 4
  | .neuron_analysis => 5
  | .reference_discovery => 6
  | .outline_generation => 7
  | .section_drafts => 8
  | .youtube_integration => 9
  | .merge_content => 10
  | .internal_linking => 11
  | .qa_validation => 12
  | .final_polish => 13
  | .publishing => 14
  | .completed => 15
  | .failed => 0

/-! ## Progress reporter (OptimizationProgress component, src/App.tsx lines 169-186) -/

/-- JavaScript `Math.round(num / den)` for integers with `den > 0`,
computed exactly: `Math.round(x) = ⌊x + 1/2⌋` (round half toward `+∞`)
and `⌊num/den + 1/2⌋ = ⌊(2·num + den) / (2·den)⌋`.  At the call sites
below the intermediate IEEE-754 values are never close enough to a
half-integer for double rounding to change the result, so the exact
computation coincides with the JS one. -/
def mathRoundDiv (num den : ℤ) : ℤ := Int.fdiv (2 * num + den) (2 * den)

/-- `Math.round((currentStep / TOTAL_STEPS) * 100)` (line 171). -/
def progressPercent (currentStep : Nat) : ℤ :=
  mathRoundDiv ((currentStep : ℤ) * 100) (TOTAL_STEPS : ℤ)

/-- `estimateRemainingTime` (lines 180-186): `none` encodes the
`'--:--'` display, returned when `currentStep === 0 || elapsedTime === 0`;
otherwise `avgTimePerStep * remainingSteps` with
`avgTimePerStep = elapsedTime / currentStep` and
`remainingSteps = TOTAL_STEPS - currentStep`.  `elapsedTime` is integer
milliseconds (`Date.now()` differences). -/
def estimateRemainingTime (currentStep elapsedTime : Nat) : Option ℚ :=
  if currentStep = 0 ∨ elapsedTime = 0 then none
  else some ((elapsedTime : ℚ) / (currentStep : ℚ)
    * ((TOTAL_STEPS : ℚ) - (currentStep : ℚ)))

/-- Monotone non-decreasing, as a computable predicate on the step
sequence of a run's progress snapshots. -/
def nonDecreasing : List Nat → Bool
  | [] => true
  | [_] => true
  | a :: b :: rest => a ≤ b && nonDecreasing (b :: rest)

/-! ## String primitives

The JS string operations the core uses (`startsWith`, `trim`,
`split`), implemented over the character list so that every definition
kernel-evaluates on concrete inputs (the corresponding `String`
built-ins are defined by well-founded recursion and do not reduce). -/

/-- `String.prototype.startsWith`. -/
def listStartsWith : List Char → List Char → Bool
  | _, [] => true
  | [], _ :: _ => false
  | c :: cs, p :: ps => c == p && listStartsWith cs ps

def strStartsWith (s p : String) : Bool := listStartsWith s.data p.data

/-- `String.prototype.trim`: strip leading and trailing whitespace. -/
def trimChars (l : List Char) : List Char :=
  ((l.dropWhile (·.isWhitespace)).reverse.dropWhile (·.isWhitespace)).reverse

def strTrim (s : String) : String := String.mk (trimChars s.data)

/-! ## Bulk URL parsing (parseBulkUrls, src/App.tsx lines 1216-1218) -/

/-- A character matched by the separator regex `/[\n,\s]+/`. -/
def isSep (c : Char) : Bool := c = ',' || c.isWhitespace

/-- First-occurrence deduplication, embedding the JS idiom
`arr.filter((u, i, arr) => arr.indexOf(u) === i)`: an element is kept
iff no equal element occurred earlier. -/
def dedupFirstAux (seen : List String) : List String → List String
  | [] => []
  | x :: xs =>
      if x ∈ seen then dedupFirstAux seen xs
      else x :: dedupFirstAux (x :: seen) xs

def dedupFirst (l : List String) : List String := dedupFirstAux [] l

/-- `parseBulkUrls`: split on runs of `[\n,\s]`, trim each token, keep
tokens starting with `"http"`, deduplicate by first occurrence.
(Splitting at every separator character emits empty tokens between
adjacent separators where the JS regex collapses runs; those empties
are removed by the `startsWith` filter in both versions, so the
results agree.) -/
def parseBulkUrls (text : String) : List String :=
  dedupFirst ((((text.data.splitOnP fun c => isSep c).map trimChars).map
    String.mk).filter (fun u => strStartsWith u "http"))

/-- Modelled from the spec: "syntactically valid absolute URLs" (§4.2);
the spec's notion of a well-formed absolute URL, requiring a scheme
followed by `://` and a non-empty remainder. The source has no such
check — it only tests `u.startsWith('http')`. -/
def isSyntacticallyValidAbsoluteUrl (u : String) : Bool :=
  (strStartsWith u "http://" && decide (7 < u.length)) ||
    (strStartsWith u "https://" && decide (8 < u.length))

/-! ## Word counting (spec model of the out-of-scope `countWords` utility) -/

/-- Modelled from the spec: the content-size metric `wordCount`
(the `countWords` utility from `./utils` is outside `src/`); counts
maximal runs of non-whitespace characters. -/
def countWordsAux : List Char → Bool → Nat
  | [], _ => 0
  | c :: cs, inWord =>
      if c.isWhitespace then countWordsAux cs false
      else (if inWord then 0 else 1) + countWordsAux cs true

def countWordsSpec (s : String) : Nat := countWordsAux s.data false

/-! ## Data model of the orchestration core -/

/-- One entry of the page catalogue (the `SitemapPage` fields the core
reads for target selection). -/
structure Page where
  id : String
  title : String
  healthScore : Option Nat
  jobStatus : Option String
  deriving DecidableEq, Repr

/-- Remote post data returned by `wpGetPostWithImages`.
`featuredImage` is `some id` iff the featured-image object is present. -/
structure PostData where
  originalSlug : Option String
  link : Option String
  originalCategories : List Nat
  originalTags : List Nat
  featuredImage : Option Nat
  titleRendered : String
  contentRendered : String
  deriving DecidableEq, Repr

/-- The `ContentContract` fields consumed by the core. -/
structure Contract where
  title : String
  slug : String
  excerpt : String
  metaDescription : String
  htmlContent : String
  deriving DecidableEq, Repr

/-- Result of `orchestrator.generateEnhanced`: the contract plus the
`progress.stage` strings reported through the stage callback, in order. -/
structure SynthesisOut where
  contract : Contract
  stages : List String
  deriving DecidableEq, Repr

/-- The `calculateSeoMetrics` outputs consumed by the core (the
component scores are integers in 0..100). -/
structure SeoMetrics where
  wordCount : Nat
  aeoScore : ℤ
  contentDepth : ℤ
  headingStructure : ℤ
  deriving DecidableEq, Repr

/-- Result of `wpUpdatePost` / `wpCreatePost`. -/
structure PublishResult where
  id : Nat
  link : String
  deriving DecidableEq, Repr

/-- `PostPreservationData` (line 872).  `featuredImageId = 0` encodes JS
`null`: every source check on it is a truthiness check, and 0 is falsy. -/
structure Preservation where
  originalSlug : Option String
  originalLink : Option String
  originalCategories : List Nat
  originalTags : List Nat
  featuredImageId : Nat
  deriving DecidableEq, Repr

def emptyPreservation : Preservation :=
  { originalSlug := none, originalLink := none, originalCategories := [],
    originalTags := [], featuredImageId := 0 }

/-- The payload sent to the publish collaborator (lines 1097-1134). -/
structure PublishData where
  title : String
  content : String
  excerpt : String
  status : String
  categories : Option (List Nat)
  tags : Option (List Nat)
  featured_media : Option Nat
  slug : Option String
  deriving DecidableEq, Repr

/-- One JobStateStore entry (the fields the core writes). -/
structure JobState where
  status : String
  phase : String
  error : Option String
  attempts : Nat
  processingTime : Option Nat
  deriving DecidableEq, Repr

/-- The return contract of `executeGodMode` (line 795). -/
structure GodModeResult where
  success : Bool
  score : ℤ
  wordCount : Nat
  error : Option String
  deriving DecidableEq, Repr

/-- Everything one run of `executeGodMode` produces or mutates:
the returned result, the phase components of the emitted progress
snapshots in order, the final progress phase and running flag, the
final JobStateStore entry for the target (`none` = never written), the
job-store phase-history writes, the publish payload (if publishing was
reached) and the cancellation flag after the run's initial reset. -/
structure RunOutcome where
  result : GodModeResult
  phases : List Phase
  phase : Phase
  isRunning : Bool
  jobState : Option JobState
  storePhaseWrites : List String
  published : Option PublishData
  token : Bool
  deriving DecidableEq, Repr

/-- The environment of one run: store configuration, preservation
toggles, target inputs, the page catalogue, and one outcome per
external collaborator call.  The HTML post-processor and word counter
(`removeAllH1Tags`, `countWords` from the out-of-scope `./utils`) are
carried as opaque functions. -/
structure Env where
  wpUrl : String
  wpUsername : String
  wpPassword : String
  keyGoogle : String
  keyOpenrouter : String
  keyOpenai : String
  keyAnthropic : String
  keyGroq : String
  keySerper : String
  keyNeuronwriter : String
  keyNeuronProject : String
  neuronEnabled : Bool
  autopublish : Bool
  preserveFeaturedImage : Bool
  preserveCategories : Bool
  preserveTags : Bool
  targetOverride : Option String
  manualUrl : String
  pages : List Page
  priorAttempts : Nat
  elapsedMs : Nat
  resolvePostId : Except String Nat
  fetchPost : Except String PostData
  entityGap : Except String Unit
  neuron : Except String Unit
  synthesis : Except String SynthesisOut
  updatePost : Except String PublishResult
  createPost : Except String PublishResult
  updateMeta : Except String Unit
  removeAllH1Tags : String → String
  countWords : String → Nat
  qaScore : ℤ
  metrics : SeoMetrics
  finalQaScore : ℤ

/-! ## executeGodMode (src/App.tsx lines 792-1210) -/

/-- `hasRequiredKeys` (lines 665-668): some AI provider key is set
(JS string truthiness = non-empty). -/
def hasRequiredKeys (env : Env) : Bool :=
  env.keyGoogle != "" || env.keyOpenrouter != "" || env.keyOpenai != "" ||
    env.keyAnthropic != "" || env.keyGroq != ""

/-- `hasNeuronConfig` (lines 670-672). -/
def hasNeuronConfig (env : Env) : Bool :=
  env.neuronEnabled && env.keyNeuronwriter != "" && env.keyNeuronProject != ""

/-- First page with minimal `healthScore || 0`.  This equals
`candidates.sort((a,b) => (a.healthScore||0)-(b.healthScore||0))[0]`
(line 852) because `Array.prototype.sort` is stable: the head of the
sorted array is the earliest element with the minimal key. -/
def minByHealth : List Page → Option Page
  | [] => none
  | p :: ps =>
      some (ps.foldl
        (fun best q =>
          if q.healthScore.getD 0 < best.healthScore.getD 0 then q else best) p)

/-- Target selection (lines 797, 829-854): explicit override, else a
manual URL starting with `http`, else the non-`running` catalogue page
with the lowest health score.  The empty string encodes JS
`undefined`/absent — every source check on `targetId` is a truthiness
check. -/
def resolveTargetId (env : Env) : String :=
  let t0 := env.targetOverride.getD ""
  let t1 :=
    if t0 = "" && env.manualUrl != "" && strStartsWith env.manualUrl "http" then
      env.manualUrl
    else t0
  if t1 = "" then
    match minByHealth (env.pages.filter (fun p => p.jobStatus != some "running")) with
    | some p => p.id
    | none => ""
  else t1

/-- The synthesis stage-progress callback (lines 1027-1044): maps each
reported stage to a progress phase; unknown stages emit nothing
(the `if/else if` chain has no final `else`). -/
def stageToPhase (s : String) : Option Phase :=
  if s = "outline" then some .outline_generation
  else if s = "sections" then some .section_drafts
  else if s = "youtube" then some .youtube_integration
  else if s = "references" then some .reference_discovery
  else if s = "merge" then some .merge_content
  else if s = "polish" then some .final_polish
  else none

/-- The base publish payload (lines 1097-1102). -/
def basePublishData (env : Env) (contract : Contract) : PublishData :=
  { title := contract.title, content := contract.htmlContent,
    excerpt := contract.excerpt,
    status := if env.autopublish then "publish" else "draft",
    categories := none, tags := none, featured_media := none, slug := none }

/-- The publish payload decision table (lines 1107-1134): on the update
path (`postId ≠ 0`, i.e. an entity id was resolved) preserved
categories/tags/featured media are attached only when the corresponding
preservation flag is enabled and the preserved value is non-empty; on
the create path the contract slug is attached instead. -/
def buildPublishData (env : Env) (contract : Contract) (pres : Preservation)
    (postId : Nat) : PublishData :=
  let base := basePublishData env contract
  if postId != 0 then
    { base with
      categories :=
        if env.preserveCategories && !pres.originalCategories.isEmpty then
          some pres.originalCategories
        else none,
      tags :=
        if env.preserveTags && !pres.originalTags.isEmpty then
          some pres.originalTags
        else none,
      featured_media :=
        if env.preserveFeaturedImage && pres.featuredImageId != 0 then
          some pres.featuredImageId
        else none }
  else
    { base with slug := some contract.slug }

/-- Which publish collaborator is invoked (lines 1107, 1120, 1131-1135):
`wpUpdatePost` when an entity id was resolved, `wpCreatePost` otherwise. -/
def publishCall (env : Env) (postId : Nat) : Except String PublishResult :=
  if postId != 0 then env.updatePost else env.createPost

/-- Success data of the `try` block. -/
structure BodySuccess where
  finalScore : ℤ
  wordCount : Nat
  published : PublishData
  deriving DecidableEq, Repr

/-- The `try` block of `executeGodMode` (lines 876-1193): the emitted
progress phases, the job-store phase writes, and either the success
data or the thrown error message.  `postId = 0` encodes JS `null` from
`wpResolvePostIdEnhanced` (`if (!postId)` is a truthiness check). -/
def phaseBody (env : Env) : List Phase × List String × Except String BodySuccess :=
  -- PHASE 1: resolve WordPress post (lines 881-919)
  let ps₁ : List Phase := [.resolving_post]
  let ss₁ : List String := ["resolving_post"]
  match env.resolvePostId with
  | .error e => (ps₁, ss₁, .error e)
  | .ok postId =>
    let pres : Preservation :=
      if postId != 0 then
        match env.fetchPost with
        | .error _ => emptyPreservation  -- soft warning (lines 916-918)
        | .ok pd =>
            { originalSlug := pd.originalSlug, originalLink := pd.link,
              originalCategories := pd.originalCategories,
              originalTags := pd.originalTags,
              featuredImageId :=
                if pd.featuredImage.isSome && env.preserveFeaturedImage then
                  pd.featuredImage.getD 0
                else 0 }
      else emptyPreservation
    -- PHASE 2: entity gap analysis (lines 938-952) — soft, needs a serper key
    let hasSerper := env.keySerper != ""
    let ps₂ := ps₁ ++ if hasSerper then [Phase.entity_gap_analysis] else []
    let ss₂ := ss₁ ++ if hasSerper then ["entity_gap_analysis"] else []
    -- PHASE 3: NeuronWriter (lines 958-975) — soft, needs neuron config
    let ps₃ := ps₂ ++ if hasNeuronConfig env then [Phase.neuron_analysis] else []
    let ss₃ := ss₂ ++ if hasNeuronConfig env then ["neuron_analysis"] else []
    -- PHASE 4: internal links (lines 981-990) — cannot fail
    let ps₄ := ps₃ ++ [Phase.internal_linking]
    let ss₄ := ss₃ ++ ["internal_linking"]
    -- PHASE 5: content synthesis (lines 996-1087)
    let ps₅ := ps₄ ++ [Phase.outline_generation]
    let ss₅ := ss₄ ++ ["content_synthesis"]
    match env.synthesis with
    | .error e => (ps₅, ss₅, .error e)  -- rethrown at line 1079
    | .ok syn =>
      let stagePhases := syn.stages.filterMap stageToPhase
      let content := env.removeAllH1Tags syn.contract.htmlContent
      let ps₆ := ps₅ ++ stagePhases ++ [Phase.qa_validation]
      let ss₆ := ss₅ ++ ["qa_validation"]
      -- final validation gate (lines 1083-1085): a character-length check
      if content.length < 2000 then
        (ps₆, ss₆, .error "Content generation failed: No valid content produced")
      else
        -- PHASE 6: publish (lines 1093-1151)
        let ps₇ := ps₆ ++ [Phase.publishing]
        let ss₇ := ss₆ ++ ["publishing"]
        let contract : Contract := { syn.contract with htmlContent := content }
        let pubData := buildPublishData env contract pres postId
        match publishCall env postId with
        | .error e => (ps₇, ss₇, .error e)
        | .ok _ =>
          -- SEO meta update (lines 1144-1151): outcome swallowed (`catch {}`)
          -- PHASE 7: completion (lines 1157-1193)
          let ps₈ := ps₇ ++ [Phase.completed]
          let ss₈ := ss₇ ++ ["completed"]
          -- `Math.round(aeo*0.25 + finalQA*0.45 + depth*0.15 + heading*0.15)`
          -- (line 1162), computed exactly over the common denominator 100
          let finalScore :=
            mathRoundDiv (env.metrics.aeoScore * 25 + env.finalQaScore * 45
              + env.metrics.contentDepth * 15
              + env.metrics.headingStructure * 15) 100
          (ps₈, ss₈,
            .ok { finalScore := finalScore, wordCount := env.metrics.wordCount,
                  published := pubData })

/-- `failWith` applied by the guard clauses (lines 822-826, 856-859):
logs, flips the progress snapshot to `failed`, returns a failure
result; the JobStateStore is not touched. -/
def guardOutcome (msg : String) : RunOutcome :=
  { result := { success := false, score := 0, wordCount := 0, error := some msg },
    phases := [.initializing, .failed], phase := .failed, isRunning := false,
    jobState := none, storePhaseWrites := [], published := none, token := false }

/-- The success return (lines 1157-1193): the job entry is completed,
the progress phase stays at `completed` with `isRunning := false`. -/
def okOutcome (env : Env) (ps : List Phase) (ss : List String)
    (s : BodySuccess) : RunOutcome :=
  { result := { success := true, score := s.finalScore,
                wordCount := s.wordCount, error := none },
    phases := Phase.initializing :: ps, phase := .completed, isRunning := false,
    jobState := some { status := "completed", phase := "completed",
                       error := none, attempts := env.priorAttempts + 1,
                       processingTime := some env.elapsedMs },
    storePhaseWrites := "initializing" :: ss,
    published := some s.published, token := false }

/-- The catch block (lines 1195-1208): `e.message || 'Unknown error'`
is recorded on the job entry together with the elapsed time, and the
progress snapshot flips to `failed`. -/
def errOutcome (env : Env) (ps : List Phase) (ss : List String)
    (e : String) : RunOutcome :=
  let msg := if e = "" then "Unknown error" else e
  { result := { success := false, score := 0, wordCount := 0,
                error := some msg },
    phases := (Phase.initializing :: ps) ++ [.failed], phase := .failed,
    isRunning := false,
    jobState := some { status := "failed", phase := "failed",
                       error := some msg, attempts := env.priorAttempts + 1,
                       processingTime := some env.elapsedMs },
    storePhaseWrites := ("initializing" :: ss) ++ ["failed"],
    published := none, token := false }

/-- Shallow embedding of `executeGodMode` (lines 792-1210).  `token` is
the state of the cancellation flag when the run starts; the source
resets it (`resetCancellationToken()`, line 799) and never reads it
during the run.  The initial progress snapshot (lines 802-811) carries
phase `initializing`; the guard clauses run in source order; then the
job entry is initialized (`status := running`, `attempts + 1`,
lines 865-866) and the `try` block runs. -/
def executeGodMode (env : Env) (token : Bool) : RunOutcome :=
  let targetId := resolveTargetId env
  if targetId = "" then guardOutcome "No pages to optimize"
  else if !hasRequiredKeys env then guardOutcome "No AI API key configured"
  else if env.wpUrl = "" then guardOutcome "WordPress URL not configured"
  else if env.wpUsername = "" ∨ env.wpPassword = "" then
    guardOutcome "WordPress credentials not configured"
  else
    match phaseBody env with
    | (ps, ss, .ok s) => okOutcome env ps ss s
    | (ps, ss, .error e) => errOutcome env ps ss e

/-! ## Bulk scheduler (executeBulkOptimization / processJob, lines 1220-1272) -/

/-- Per-job outcome of the `Promise.race` (lines 1242-1245): either the
orchestrator result or the `'Job timeout'` rejection. -/
inductive JobRace where
  | finished (r : GodModeResult)
  | timedOut
  deriving DecidableEq, Repr

/-- The success test `result.success && result.score >= 50` (line 1247). -/
def countsCompleted : JobRace → Bool
  | .finished r => r.success && decide (50 ≤ r.score)
  | .timedOut => false

/-- The message of the error thrown at line 1252,
`result.error || 'Quality check failed'` (the empty string is falsy). -/
def jobFailReason (r : GodModeResult) : String :=
  match r.error with
  | some e => if e = "" then "Quality check failed" else e
  | none => "Quality check failed"

/-- How one settled job is recorded in the batch state (lines 1247-1258). -/
inductive JobClass where
  | completedJob (score : ℤ) (wordCount : Nat)
  | failedJob (reason : String)
  deriving DecidableEq, Repr

def classifyJob : JobRace → JobClass
  | .finished r =>
      if r.success && decide (50 ≤ r.score) then .completedJob r.score r.wordCount
      else .failedJob (jobFailReason r)
  | .timedOut => .failedJob "Job timeout"

/-- The local batch counters `completed/failed/totalWords/totalScore`
(line 1233, updated at lines 1248 and 1255). -/
structure BulkAggregates where
  completed : Nat
  failed : Nat
  totalWords : Nat
  totalScore : ℤ
  deriving DecidableEq, Repr

def stepAggregates (a : BulkAggregates) (j : JobRace) : BulkAggregates :=
  match classifyJob j with
  | .completedJob score wc =>
      { a with completed := a.completed + 1, totalWords := a.totalWords + wc,
               totalScore := a.totalScore + score }
  | .failedJob _ => { a with failed := a.failed + 1 }

def runBulkAggregation (js : List JobRace) : BulkAggregates :=
  js.foldl stepAggregates ⟨0, 0, 0, 0⟩

/-- `avgScore` written at batch end (line 1269):
`completed > 0 ? Math.round(totalScore / completed) : 0`. -/
def finalAvgScore (js : List JobRace) : ℤ :=
  let a := runBulkAggregation js
  if 0 < a.completed then mathRoundDiv a.totalScore (a.completed : ℤ) else 0

/-- The wave decomposition of the batch loop (lines 1261-1266):
`jobs.slice(i, i + N)` for `i = 0, N, 2N, …` (for `N ≥ 1`). -/
def waves (N : Nat) : List α → List (List α)
  | [] => []
  | j :: js => (j :: js.take (N - 1)) :: waves N (js.drop (N - 1))
termination_by l => l.length
decreasing_by simp only [List.length_drop, List.length_cons]; omega

/-- Observable scheduling events of one batch: a job entering the
`running` state (line 1239) or settling (lines 1249, 1256). -/
inductive BulkEvent (α : Type) where
  | start (j : α)
  | finish (j : α)
  deriving DecidableEq, Repr

/-- Event block of one wave: `batch.map(job => processJob(job))` starts
every job of the wave, then `await Promise.all` (line 1264) lets all of
them settle before the next wave begins.  (The order in which the jobs
of a wave finish is immaterial to the running count, since a finish
only ever decreases it.) -/
def waveTrace (w : List α) : List (BulkEvent α) :=
  w.map .start ++ w.map .finish

/-- The full event trace of a batch.  A batch abort (`bulkAbortRef`)
only truncates this trace or drops starts, which cannot increase the
running count of any prefix. -/
def bulkTrace (N : Nat) (jobs : List α) : List (BulkEvent α) :=
  ((waves N jobs).map waveTrace).flatten

def eventDelta : BulkEvent α → ℤ
  | .start _ => 1
  | .finish _ => -1

/-- Number of concurrently `running` jobs after a prefix of events. -/
def running (t : List (BulkEvent α)) : ℤ := (t.map eventDelta).sum

/-! ## Lemmas: exact rounding -/

/-- The integer implementation of `Math.round(num / den)` agrees with
the mathematical round-half-up of the exact quotient. -/
lemma mathRoundDiv_eq_floor (num : ℤ) (den : ℕ) (hden : 0 < den) :
    mathRoundDiv num den = ⌊(num : ℚ) / (den : ℚ) + 1 / 2⌋ := by
  have h2 : (0 : ℤ) ≤ 2 * (den : ℤ) := by positivity
  rw [mathRoundDiv, Int.fdiv_eq_ediv _ h2]
  have : (2 * (den : ℤ)) = ((2 * den : ℕ) : ℤ) := by push_cast; ring
  rw [this, ← Rat.floor_intCast_div_natCast (2 * num + den) (2 * den)]
  congr 1
  have hden' : ((den : ℚ)) ≠ 0 := by positivity
  push_cast
  field_simp
  ring

/-! ## Lemmas: first-occurrence deduplication -/

lemma mem_dedupFirstAux (x : String) :
    ∀ (l seen : List String), x ∈ dedupFirstAux seen l ↔ x ∈ l ∧ x ∉ seen := by
  intro l
  induction l with
  | nil => intro seen; simp [dedupFirstAux]
  | cons y l ih =>
      intro seen
      rw [dedupFirstAux]
      by_cases hy : y ∈ seen
      · rw [if_pos hy, ih]
        constructor
        · exact fun h => ⟨List.mem_cons_of_mem _ h.1, h.2⟩
        · rintro ⟨h1, h2⟩
          rcases List.mem_cons.mp h1 with rfl | h1
          · exact absurd hy h2
          · exact ⟨h1, h2⟩
      · rw [if_neg hy]
        rw [List.mem_cons, List.mem_cons, ih]
        constructor
        · rintro (rfl | ⟨h1, h2⟩)
          · exact ⟨Or.inl rfl, hy⟩
          · refine ⟨Or.inr h1, fun hs => h2 (List.mem_cons_of_mem _ hs)⟩
        · rintro ⟨rfl | h1, h2⟩
          · exact Or.inl rfl
          · rcases eq_or_ne x y with rfl | hxy
            · exact Or.inl rfl
            · refine Or.inr ⟨h1, fun hs => ?_⟩
              rcases List.mem_cons.mp hs with rfl | hs
              · exact hxy rfl
              · exact h2 hs

lemma nodup_dedupFirstAux : ∀ (l seen : List String), (dedupFirstAux seen l).Nodup := by
  intro l
  induction l with
  | nil => intro seen; simp [dedupFirstAux]
  | cons y l ih =>
      intro seen
      rw [dedupFirstAux]
      by_cases hy : y ∈ seen
      · rw [if_pos hy]; exact ih seen
      · rw [if_neg hy]
        refine List.nodup_cons.mpr ⟨fun hmem => ?_, ih (y :: seen)⟩
        exact ((mem_dedupFirstAux y l (y :: seen)).mp hmem).2 (List.mem_cons_self y seen)

/-! ## Claim C10: percent-complete and ETA -/

/-- **C10, counterexample.**  At step 1 the reported percent-complete
is `Math.round(100·1/15) = 7`, not `floor(100·1/15) = 6`; and at step 3
with elapsed time 0 the ETA reads `'--:--'` although the step is
nonzero — so the display is not defined exactly when `step == 0`. -/
theorem claimC10_counterexample :
    progressPercent 1 = 7 ∧ (⌊(100 * (1 : ℚ)) / 15⌋ : ℤ) = 6 ∧
      estimateRemainingTime 3 0 = none ∧ (3 : Nat) ≠ 0 :=
  ⟨by decide, by norm_num, by decide, by decide⟩

/-- **C10, amended.**  For every phase step `s` and elapsed time `e`,
the reported percent-complete equals `Math.round(100·s/15)` — round
half up, not floor — and the ETA estimate equals `(e/s)·(15-s)` when
`s ≠ 0` and `e ≠ 0`, being undefined (`'--:--'`) exactly when `s = 0`
or `e = 0`. -/
theorem claimC10_amended : ∀ (s e : Nat),
    progressPercent s = ⌊((s : ℚ) / (TOTAL_STEPS : ℚ)) * 100 + 1 / 2⌋ ∧
    (estimateRemainingTime s e = none ↔ s = 0 ∨ e = 0) ∧
    (s ≠ 0 → e ≠ 0 → estimateRemainingTime s e =
      some ((e : ℚ) / (s : ℚ) * ((TOTAL_STEPS : ℚ) - (s : ℚ)))) := by
  intro s e
  refine ⟨?_, ?_, ?_⟩
  · rw [progressPercent, mathRoundDiv_eq_floor _ _ (by norm_num [TOTAL_STEPS])]
    congr 1
    push_cast
    ring
  · rw [estimateRemainingTime]
    split <;> simp_all
  · intro hs he
    rw [estimateRemainingTime, if_neg (by tauto)]

theorem claimC10_witness :
    estimateRemainingTime 3 30 = some (((30 : Nat) : ℚ) / ((3 : Nat) : ℚ)
      * ((TOTAL_STEPS : ℚ) - ((3 : Nat) : ℚ))) :=
  (claimC10_amended 3 30).2.2 (by decide) (by decide)

/-! ## Claim C8: bulk URL normalization -/

/-- **C8, counterexample.**  The bulk-input filter is only a `'http'`
prefix test, not a syntactic-URL validation: the token `"httpgarbage"`
is not a syntactically valid absolute URL, yet it survives parsing and
becomes a job. -/
theorem claimC8_counterexample :
    parseBulkUrls "httpgarbage" = ["httpgarbage"] ∧
      isSyntacticallyValidAbsoluteUrl "httpgarbage" = false :=
  ⟨by decide, by decide⟩

/-- **C8, amended.**  For every raw bulk-input text, the job set is
obtained by splitting on `[\n,\s]` runs, trimming, keeping tokens that
start with `"http"` (a prefix check, not URL validation), and
deduplicating by exact string equality: the result is duplicate-free,
contains exactly the surviving tokens, and contains each exactly once —
so duplicate and whitespace-variant occurrences of one URL yield a
single job. -/
theorem claimC8_amended : ∀ (text : String),
    (parseBulkUrls text).Nodup ∧
    (∀ u, u ∈ parseBulkUrls text ↔
      (u ∈ ((text.data.splitOnP fun c => isSep c).map trimChars).map String.mk ∧
        strStartsWith u "http" = true)) ∧
    (∀ u, u ∈ parseBulkUrls text → (parseBulkUrls text).count u = 1) := by
  intro text
  have hnd : (parseBulkUrls text).Nodup := nodup_dedupFirstAux _ _
  refine ⟨hnd, ?_, ?_⟩
  · intro u
    rw [parseBulkUrls, dedupFirst, mem_dedupFirstAux]
    simp [List.mem_filter]
  · intro u hu
    exact List.count_eq_one_of_mem hnd hu

/-- The spec's own bulk-dedup scenario: three whitespace-variant copies
of `https://a.com/x` yield exactly one job. -/
theorem claimC8_witness :
    (parseBulkUrls "https://a.com/x\n https://a.com/x\nhttps://a.com/x").count
      "https://a.com/x" = 1 :=
  (claimC8_amended _).2.2 _ (by decide)

/-! ## Lemmas: waves and the running-job bound -/

lemma waves_cons (N : Nat) (j : α) (js : List α) :
    waves N (j :: js) = (j :: js.take (N - 1)) :: waves N (js.drop (N - 1)) := by
  rw [waves]

lemma length_le_of_mem_waves_aux (N : Nat) (hN : 1 ≤ N) :
    ∀ (fuel : Nat) (l : List α), l.length ≤ fuel →
      ∀ w ∈ waves N l, w.length ≤ N := by
  intro fuel
  induction fuel with
  | zero =>
      intro l hl w hw
      rw [List.length_eq_zero.mp (Nat.le_zero.mp hl)] at hw
      simp [waves] at hw
  | succ n ih =>
      intro l hl w hw
      match l with
      | [] => simp [waves] at hw
      | j :: js =>
          rw [waves_cons] at hw
          rcases List.mem_cons.mp hw with rfl | hw
          · have := List.length_take_le (N - 1) js
            simp only [List.length_cons]
            omega
          · refine ih (js.drop (N - 1)) ?_ w hw
            simp only [List.length_drop]
            simp only [List.length_cons] at hl
            omega

lemma length_le_of_mem_waves (N : Nat) (hN : 1 ≤ N) (l : List α)
    (w : List α) (hw : w ∈ waves N l) : w.length ≤ N :=
  length_le_of_mem_waves_aux N hN l.length l le_rfl w hw

lemma waves_flatten_aux (N : Nat) :
    ∀ (fuel : Nat) (l : List α), l.length ≤ fuel → (waves N l).flatten = l := by
  intro fuel
  induction fuel with
  | zero =>
      intro l hl
      rw [List.length_eq_zero.mp (Nat.le_zero.mp hl)]
      simp [waves]
  | succ n ih =>
      intro l hl
      match l with
      | [] => simp [waves]
      | j :: js =>
          have hjs : (js.drop (N - 1)).length ≤ n := by
            simp only [List.length_drop]
            simp only [List.length_cons] at hl
            omega
          rw [waves_cons, List.flatten_cons, ih (js.drop (N - 1)) hjs,
            List.cons_append, List.take_append_drop]

lemma waves_flatten (N : Nat) (l : List α) : (waves N l).flatten = l :=
  waves_flatten_aux N l.length l le_rfl

lemma running_append (a b : List (BulkEvent α)) :
    running (a ++ b) = running a + running b := by
  simp [running]

lemma running_le_length (t : List (BulkEvent α)) : running t ≤ t.length := by
  induction t with
  | nil => simp [running]
  | cons e t ih =>
      have : eventDelta e ≤ 1 := by cases e <;> simp [eventDelta]
      simp only [running, List.map_cons, List.sum_cons, List.length_cons] at *
      push_cast
      omega

lemma running_nonpos_of_finishes (t : List (BulkEvent α))
    (h : ∀ e ∈ t, eventDelta e = -1) : running t ≤ 0 := by
  induction t with
  | nil => simp [running]
  | cons e t ih =>
      have he := h e (List.mem_cons_self e t)
      have ht := ih fun x hx => h x (List.mem_cons_of_mem e hx)
      simp only [running, List.map_cons, List.sum_cons] at *
      omega

lemma running_map_start (w : List α) :
    running (w.map BulkEvent.start) = (w.length : ℤ) := by
  induction w with
  | nil => simp [running]
  | cons a w ih =>
      simp only [running, List.map_cons, List.sum_cons, eventDelta,
        List.length_cons] at *
      push_cast
      omega

lemma running_map_finish (w : List α) :
    running (w.map BulkEvent.finish) = -(w.length : ℤ) := by
  induction w with
  | nil => simp [running]
  | cons a w ih =>
      simp only [running, List.map_cons, List.sum_cons, eventDelta,
        List.length_cons] at *
      push_cast
      omega

lemma running_waveTrace (w : List α) : running (waveTrace w) = 0 := by
  rw [waveTrace, running_append, running_map_start, running_map_finish]
  ring

/-- Any prefix of one wave's event block has at most `w.length` jobs
running: the starts come first. -/
lemma running_prefix_waveTrace (w : List α) (t₁ t₂ : List (BulkEvent α))
    (h : waveTrace w = t₁ ++ t₂) : running t₁ ≤ w.length := by
  rw [waveTrace] at h
  rcases List.append_eq_append_iff.mp h.symm with ⟨u, hu1, _⟩ | ⟨u, hu1, hu2⟩
  · -- w.map start = t₁ ++ u : t₁ is a prefix of the starts
    have hlen : t₁.length ≤ w.length := by
      have := congrArg List.length hu1
      simp only [List.length_map, List.length_append] at this
      omega
    calc running t₁ ≤ (t₁.length : ℤ) := running_le_length t₁
      _ ≤ (w.length : ℤ) := by exact_mod_cast hlen
  · -- t₁ = w.map start ++ u with u a prefix of the finishes
    have hu : running u ≤ 0 := by
      refine running_nonpos_of_finishes u fun e he => ?_
      have : e ∈ w.map BulkEvent.finish := hu2 ▸ List.mem_append_left _ he
      rcases List.mem_map.mp this with ⟨a, _, rfl⟩
      rfl
    rw [hu1, running_append, running_map_start]
    omega

/-- The semaphore bound: across the whole batch trace, no prefix ever
has more than `N` jobs running, provided every wave has at most `N`
jobs. -/
lemma running_prefix_flatten (N : ℤ) (hN : 0 ≤ N) :
    ∀ (ws : List (List α)), (∀ w ∈ ws, (w.length : ℤ) ≤ N) →
      ∀ t₁ t₂, (ws.map waveTrace).flatten = t₁ ++ t₂ → running t₁ ≤ N := by
  intro ws
  induction ws with
  | nil =>
      intro _ t₁ t₂ h
      simp only [List.map_nil, List.flatten_nil] at h
      rw [(List.append_eq_nil.mp h.symm).1]
      simpa [running] using hN
  | cons w ws ih =>
      intro hlen t₁ t₂ h
      simp only [List.map_cons, List.flatten_cons] at h
      rcases List.append_eq_append_iff.mp h with ⟨u, hu1, hu2⟩ | ⟨u, hu1, hu2⟩
      · -- t₁ = waveTrace w ++ u and the rest decomposes as u ++ t₂
        rw [hu1, running_append, running_waveTrace, zero_add]
        exact ih (fun v hv => hlen v (List.mem_cons_of_mem w hv)) u t₂ hu2
      · -- t₁ is a prefix of waveTrace w
        calc running t₁ ≤ (w.length : ℤ) :=
              running_prefix_waveTrace w t₁ u hu1
          _ ≤ N := hlen w (List.mem_cons_self w ws)

/-! ## Claim C5: concurrency bound of the bulk scheduler -/

/-- **C5, confirmed.**  For every bulk batch (parsed from raw input
text) and concurrency limit `N ≥ 1`: the jobs are partitioned into
consecutive waves of size at most `N` (the waves concatenate back to
the job list), and since the scheduler awaits full completion of a
wave before starting the next, no prefix of the batch's event trace
ever has more than `N` jobs in the `running` state. -/
theorem claimC5_concurrency_bound : ∀ (N : Nat) (text : String), 1 ≤ N →
    (∀ w ∈ waves N (parseBulkUrls text), w.length ≤ N) ∧
    (waves N (parseBulkUrls text)).flatten = parseBulkUrls text ∧
    (∀ t₁ t₂, bulkTrace N (parseBulkUrls text) = t₁ ++ t₂ →
      running t₁ ≤ (N : ℤ)) := by
  intro N text hN
  refine ⟨fun w hw => length_le_of_mem_waves N hN _ w hw, waves_flatten N _, ?_⟩
  intro t₁ t₂ h
  rw [bulkTrace] at h
  refine running_prefix_flatten (N : ℤ) (by positivity)
    (waves N (parseBulkUrls text)) (fun w hw => ?_) t₁ t₂ h
  exact_mod_cast length_le_of_mem_waves N hN _ w hw

theorem claimC5_witness :
    (∀ w ∈ waves 2 (parseBulkUrls "https://a.com/1 https://a.com/2 https://a.com/3"),
      w.length ≤ 2) ∧
    (waves 2 (parseBulkUrls "https://a.com/1 https://a.com/2 https://a.com/3")).flatten =
      parseBulkUrls "https://a.com/1 https://a.com/2 https://a.com/3" ∧
    (∀ t₁ t₂,
      bulkTrace 2 (parseBulkUrls "https://a.com/1 https://a.com/2 https://a.com/3") =
        t₁ ++ t₂ → running t₁ ≤ (2 : ℤ)) :=
  claimC5_concurrency_bound 2 _ (by decide)

/-! ## Lemmas: the phase pipeline -/

/-- The stage-progress callback never reports a terminal phase. -/
lemma stageToPhase_not_terminal (s : String) (p : Phase)
    (h : stageToPhase s = some p) :
    p ≠ Phase.completed ∧ p ≠ Phase.publishing ∧ p ≠ Phase.failed := by
  rw [stageToPhase] at h
  split_ifs at h <;>
    first
      | exact Option.noConfusion h
      | (rw [Option.some_inj] at h; subst h;
         exact ⟨by decide, by decide, by decide⟩)

/-- A successful `try`-block run: synthesis succeeded, the content
passed the 2000-character gate, and the emitted phases end with
`completed`, which occurs nowhere earlier. -/
lemma phaseBody_ok (env : Env) (ps : List Phase) (ss : List String)
    (s : BodySuccess) (h : phaseBody env = (ps, ss, Except.ok s)) :
    ∃ syn, env.synthesis = Except.ok syn ∧
      2000 ≤ (env.removeAllH1Tags syn.contract.htmlContent).length ∧
      ∃ pre, ps = pre ++ [Phase.completed] ∧ Phase.completed ∉ pre := by
  rcases hr : env.resolvePostId with e | pid
  · simp only [phaseBody, hr, Prod.mk.injEq] at h
    exact absurd h.2.2 (by simp)
  rcases hs : env.synthesis with e | syn
  · simp only [phaseBody, hr, hs, Prod.mk.injEq] at h
    exact absurd h.2.2 (by simp)
  by_cases hg : (env.removeAllH1Tags syn.contract.htmlContent).length < 2000
  · simp only [phaseBody, hr, hs, hg, if_true, Prod.mk.injEq] at h
    exact absurd h.2.2 (by simp)
  rcases hp : publishCall env pid with e | pr
  · simp only [phaseBody, hr, hs, hg, if_false, hp, Prod.mk.injEq] at h
    exact absurd h.2.2 (by simp)
  · simp only [phaseBody, hr, hs, hg, if_false, hp, Prod.mk.injEq] at h
    refine ⟨syn, rfl, by omega, ?_⟩
    refine ⟨_, h.1.symm, ?_⟩
    intro hmem
    split_ifs at hmem <;>
      simp at hmem <;>
      obtain ⟨a, -, ha⟩ := hmem <;>
      exact (stageToPhase_not_terminal a _ ha).1 rfl

/-- A run whose synthesis output fails the 2000-character gate: the
`try` block throws the generation error before the publishing phase is
ever emitted. -/
lemma phaseBody_gate (env : Env) (pid : Nat) (syn : SynthesisOut)
    (hr : env.resolvePostId = Except.ok pid) (hs : env.synthesis = Except.ok syn)
    (hg : (env.removeAllH1Tags syn.contract.htmlContent).length < 2000) :
    ∃ ps ss, phaseBody env =
      (ps, ss, Except.error "Content generation failed: No valid content produced") ∧
      Phase.publishing ∉ ps ∧ Phase.completed ∉ ps := by
  simp only [phaseBody, hr, hs, hg, if_true]
  refine ⟨_, _, rfl, ?_, ?_⟩ <;>
  · intro hmem
    split_ifs at hmem <;>
      simp at hmem <;>
      obtain ⟨a, -, ha⟩ := hmem <;>
      rcases stageToPhase_not_terminal a _ ha with ⟨hc, hp, hf⟩ <;>
      simp_all

/-- A successful run returns no error message. -/
lemma executeGodMode_success_error_none (env : Env) (tok : Bool)
    (h : (executeGodMode env tok).result.success = true) :
    (executeGodMode env tok).result.error = none := by
  rcases hpb : phaseBody env with ⟨ps, ss, res⟩
  simp only [executeGodMode, hpb] at h ⊢
  split_ifs at h ⊢ <;> try simp [guardOutcome] at h
  cases res with
  | ok s => rfl
  | error e => simp [errOutcome] at h

/-! ## Concrete run environments -/

/-- A 2000-character single-word content body: long enough to pass the
length gate, far below `MIN_WORD_COUNT` words. -/
def sampleContent : String := String.mk (List.replicate 2000 'a')

/-- A fully configured environment whose every collaborator succeeds:
the run follows the create path and completes. -/
def envBase : Env :=
  { wpUrl := "https://site.example", wpUsername := "u", wpPassword := "p",
    keyGoogle := "k", keyOpenrouter := "", keyOpenai := "", keyAnthropic := "",
    keyGroq := "", keySerper := "", keyNeuronwriter := "", keyNeuronProject := "",
    neuronEnabled := false, autopublish := false,
    preserveFeaturedImage := true, preserveCategories := true,
    preserveTags := true,
    targetOverride := some "https://site.example/post", manualUrl := "",
    pages := [], priorAttempts := 0, elapsedMs := 60000,
    resolvePostId := .ok 0,
    fetchPost := .error "unused",
    entityGap := .ok (), neuron := .ok (),
    synthesis := .ok { contract := { title := "T", slug := "t", excerpt := "",
                                     metaDescription := "m",
                                     htmlContent := sampleContent },
                       stages := [] },
    updatePost := .ok { id := 7, link := "L" },
    createPost := .ok { id := 7, link := "L" },
    updateMeta := .ok (),
    removeAllH1Tags := id, countWords := countWordsSpec,
    qaScore := 80,
    metrics := { wordCount := 4200, aeoScore := 80, contentDepth := 80,
                 headingStructure := 80 },
    finalQaScore := 80 }

/-- `envBase` with the metric word count matching the thin one-word
content: the run still succeeds. -/
def envThin : Env :=
  { envBase with
    metrics := { wordCount := 1, aeoScore := 80, contentDepth := 80,
                 headingStructure := 80 } }

/-- `envBase` with all quality metrics zero: the run succeeds with a
final score of 0. -/
def envLowScore : Env :=
  { envBase with
    metrics := { wordCount := 4200, aeoScore := 0, contentDepth := 0,
                 headingStructure := 0 },
    finalQaScore := 0 }

/-- No target resolvable and no AI key configured. -/
def envGuard : Env := { envBase with keyGoogle := "", targetOverride := none }

/-- A target but no AI key configured. -/
def envNoKey : Env := { envBase with keyGoogle := "" }

/-- A synthesis output far below the 2000-character gate. -/
def shortSyn : SynthesisOut :=
  { contract := { title := "T", slug := "t", excerpt := "",
                  metaDescription := "m", htmlContent := "short" },
    stages := [] }

/-- `envBase` with the short synthesis output: the run hits the
generation-error gate. -/
def envShort : Env := { envBase with synthesis := .ok shortSyn }

/-! ## Evaluation lemmas for the concrete environments

The 2000-character content is too deep for kernel evaluation, so the
facts about the successful concrete runs are established by rewriting
(`List.length_replicate`) rather than by `decide`. -/

lemma sampleContent_length : sampleContent.length = 2000 := by
  show (List.replicate 2000 'a').length = 2000
  simp

lemma countWordsAux_replicate_a :
    ∀ n, countWordsAux (List.replicate n 'a') true = 0 := by
  intro n
  induction n with
  | zero => rfl
  | succ k ih =>
      rw [List.replicate_succ]
      simp [countWordsAux, ih, (by decide : ('a').isWhitespace = false)]

lemma countWordsSpec_sampleContent : countWordsSpec sampleContent = 1 := by
  have h1 : countWordsAux (List.replicate 2000 'a') false
      = 1 + countWordsAux (List.replicate 1999 'a') true := by
    rw [show (2000 : Nat) = 1999 + 1 by rfl, List.replicate_succ]
    show (if ('a').isWhitespace = true
        then countWordsAux (List.replicate 1999 'a') false
        else (if false = true then 0 else 1)
          + countWordsAux (List.replicate 1999 'a') true)
      = 1 + countWordsAux (List.replicate 1999 'a') true
    rw [if_neg (by decide), if_neg (by decide)]
  show countWordsAux (List.replicate 2000 'a') false = 1
  rw [h1, countWordsAux_replicate_a]

lemma envBase_run :
    (executeGodMode envBase false).result.success = true ∧
    (executeGodMode envBase false).phases =
      [Phase.initializing, Phase.resolving_post, Phase.internal_linking,
       Phase.outline_generation, Phase.qa_validation, Phase.publishing,
       Phase.completed] := by
  constructor <;>
    simp [executeGodMode, guardOutcome, okOutcome, errOutcome, phaseBody,
      publishCall, resolveTargetId, hasRequiredKeys, hasNeuronConfig, envBase, strStartsWith, listStartsWith,
      sampleContent_length]

lemma envThin_run :
    (executeGodMode envThin false).result.success = true ∧
    (executeGodMode envThin false).result.wordCount = 1 := by
  constructor <;>
    simp [executeGodMode, guardOutcome, okOutcome, errOutcome, phaseBody,
      publishCall, resolveTargetId, hasRequiredKeys, hasNeuronConfig, envThin, envBase, strStartsWith,
      listStartsWith, sampleContent_length]

lemma envLowScore_run :
    (executeGodMode envLowScore false).result.success = true ∧
    (executeGodMode envLowScore false).result.score = 0 := by
  constructor <;>
    simp [executeGodMode, guardOutcome, okOutcome, errOutcome, phaseBody,
      publishCall, resolveTargetId, hasRequiredKeys, hasNeuronConfig, envLowScore, envBase, strStartsWith,
      listStartsWith, sampleContent_length, mathRoundDiv]

/-! ## Claim C1: progress-step monotonicity -/

/-- **C1, counterexample.**  A fully successful run whose emitted
phase-step sequence is not monotone: `executeGodMode` reports
`internal_linking` (step 11) before `outline_generation` (step 7). -/
theorem claimC1_counterexample :
    (executeGodMode envBase false).result.success = true ∧
    nonDecreasing ((executeGodMode envBase false).phases.map Phase.step) = false := by
  refine ⟨envBase_run.1, ?_⟩
  rw [envBase_run.2]
  decide

/-- **C1, amended.**  In every successful run the step index reaches 15
only at completion: `completed` (the only phase with step 15) is the
final progress snapshot and occurs nowhere earlier — but the step
sequence is not monotonically non-decreasing, since the
`internal_linking` phase (step 11) is always emitted before content
synthesis (`outline_generation`, step 7). -/
theorem claimC1_amended : ∀ (env : Env) (tok : Bool),
    ((executeGodMode env tok).result.success = true →
      ∃ pre, (executeGodMode env tok).phases = pre ++ [Phase.completed] ∧
        Phase.completed ∉ pre) ∧
    (∀ p : Phase, p.step = 15 ↔ p = Phase.completed) := by
  intro env tok
  constructor
  · intro hsucc
    rcases hpb : phaseBody env with ⟨ps, ss, res⟩
    simp only [executeGodMode, hpb] at hsucc ⊢
    split_ifs at hsucc ⊢ <;> try simp [guardOutcome] at hsucc
    cases res with
    | error e => simp [errOutcome] at hsucc
    | ok s =>
        obtain ⟨syn, -, -, pre, hps, hpre⟩ := phaseBody_ok env ps ss s hpb
        refine ⟨Phase.initializing :: pre, ?_, ?_⟩
        · show Phase.initializing :: ps = Phase.initializing :: pre ++ [Phase.completed]
          rw [hps, List.cons_append]
        · intro hmem
          rcases List.mem_cons.mp hmem with h | h
          · exact absurd h (by decide)
          · exact hpre h
  · intro p
    cases p <;> decide

theorem claimC1_witness :
    ∃ pre, (executeGodMode envBase false).phases = pre ++ [Phase.completed] ∧
      Phase.completed ∉ pre :=
  (claimC1_amended envBase false).1 envBase_run.1

/-! ## Claim C2: the content-size quality gate -/

/-- **C2, counterexample.**  A successful run whose synthesized content
is a single 2000-character word: the run completes although the content
has 1 word, far below `MIN_WORD_COUNT = 3000` — the gate is a
2000-character length check, not a word-count check. -/
theorem claimC2_counterexample :
    (executeGodMode envThin false).result.success = true ∧
    countWordsSpec sampleContent = 1 ∧
    (executeGodMode envThin false).result.wordCount < MIN_WORD_COUNT := by
  refine ⟨envThin_run.1, countWordsSpec_sampleContent, ?_⟩
  rw [envThin_run.2]
  decide

/-- **C2, amended.**  The terminal quality gate for content sufficiency
is a character-length check: every successful run's post-processed
content has at least 2000 characters, and whenever the post-processed
synthesis output is shorter than 2000 characters (and the run reaches
synthesis), the run is a hard failure with error
`'Content generation failed: No valid content produced'` and publishing
is never reached.  The `MIN_WORD_COUNT` constant is not enforced. -/
theorem claimC2_amended : ∀ (env : Env) (tok : Bool),
    ((executeGodMode env tok).result.success = true →
      ∃ syn, env.synthesis = Except.ok syn ∧
        2000 ≤ (env.removeAllH1Tags syn.contract.htmlContent).length) ∧
    (∀ (pid : Nat) (syn : SynthesisOut),
      env.resolvePostId = Except.ok pid → env.synthesis = Except.ok syn →
      resolveTargetId env ≠ "" → hasRequiredKeys env = true →
      env.wpUrl ≠ "" → env.wpUsername ≠ "" → env.wpPassword ≠ "" →
      (env.removeAllH1Tags syn.contract.htmlContent).length < 2000 →
      (executeGodMode env tok).result =
        { success := false, score := 0, wordCount := 0,
          error := some "Content generation failed: No valid content produced" } ∧
      Phase.publishing ∉ (executeGodMode env tok).phases) := by
  intro env tok
  constructor
  · intro hsucc
    rcases hpb : phaseBody env with ⟨ps, ss, res⟩
    simp only [executeGodMode, hpb] at hsucc
    split_ifs at hsucc <;> try simp [guardOutcome] at hsucc
    cases res with
    | error e => simp [errOutcome] at hsucc
    | ok s =>
        obtain ⟨syn, hsyn, hlen, -⟩ := phaseBody_ok env ps ss s hpb
        exact ⟨syn, hsyn, hlen⟩
  · intro pid syn hr hs ht hk hu hun hpw hlt
    obtain ⟨ps, ss, hpb, hnp, -⟩ := phaseBody_gate env pid syn hr hs hlt
    simp only [executeGodMode, hpb]
    rw [if_neg ht, if_neg (by simp [hk]), if_neg hu,
      if_neg (by rintro (h | h) <;> [exact hun h; exact hpw h])]
    refine ⟨by simp [errOutcome], ?_⟩
    show Phase.publishing ∉ (Phase.initializing :: ps) ++ [Phase.failed]
    intro hmem
    rcases List.mem_append.mp hmem with h | h
    · rcases List.mem_cons.mp h with h | h
      · exact absurd h (by decide)
      · exact hnp h
    · exact absurd h (by decide)

theorem claimC2_witness :
    (executeGodMode envShort false).result =
      { success := false, score := 0, wordCount := 0,
        error := some "Content generation failed: No valid content produced" } ∧
    Phase.publishing ∉ (executeGodMode envShort false).phases :=
  (claimC2_amended envShort false).2 0 shortSyn rfl rfl
    (by decide) (by decide) (by decide) (by decide) (by decide) (by decide)

/-! ## Claim C4: terminal-state contract -/

/-- **C4, confirmed.**  Every run ends in exactly one of
`completed`/`failed`: a success leaves the progress phase at
`completed` and the job entry at `status/phase = completed`; any hard
failure (after the job started) writes `status = failed`,
`phase = failed`, the error message and the elapsed time, and returns
`{success := false, score := 0, wordCount := 0}` with a non-empty
error; the function never returns in an intermediate phase. -/
theorem claimC4_terminal_contract : ∀ (env : Env) (tok : Bool),
    ((executeGodMode env tok).phase = Phase.completed ∨
      (executeGodMode env tok).phase = Phase.failed) ∧
    (executeGodMode env tok).isRunning = false ∧
    ((executeGodMode env tok).result.success = true →
      (executeGodMode env tok).phase = Phase.completed ∧
      (executeGodMode env tok).result.error = none) ∧
    ((executeGodMode env tok).result.success = false →
      (executeGodMode env tok).result.score = 0 ∧
      (executeGodMode env tok).result.wordCount = 0 ∧
      (executeGodMode env tok).phase = Phase.failed ∧
      ∃ m, (executeGodMode env tok).result.error = some m ∧ m ≠ "") ∧
    (∀ js, (executeGodMode env tok).jobState = some js →
      ((executeGodMode env tok).result.success = true →
        js.status = "completed" ∧ js.phase = "completed" ∧
        js.processingTime = some env.elapsedMs) ∧
      ((executeGodMode env tok).result.success = false →
        js.status = "failed" ∧ js.phase = "failed" ∧
        js.error = (executeGodMode env tok).result.error ∧
        js.processingTime = some env.elapsedMs)) := by
  intro env tok
  rcases hpb : phaseBody env with ⟨ps, ss, res⟩
  simp only [executeGodMode, hpb]
  split_ifs <;>
    first
      | exact ⟨Or.inr rfl, rfl, fun h => by simp [guardOutcome] at h,
          fun _ => ⟨rfl, rfl, rfl, ⟨_, rfl, by decide⟩⟩,
          fun js hjs => by simp [guardOutcome] at hjs⟩
      | cases res with
        | ok s =>
            refine ⟨Or.inl rfl, rfl, fun _ => ⟨rfl, rfl⟩,
              fun h => by simp [okOutcome] at h, fun js hjs => ?_⟩
            have hjs : (some ⟨"completed", "completed", none,
                env.priorAttempts + 1, some env.elapsedMs⟩ :
                Option JobState) = some js := hjs
            obtain rfl := Option.some_inj.mp hjs
            exact ⟨fun _ => ⟨rfl, rfl, rfl⟩, fun h => by simp [okOutcome] at h⟩
        | error e =>
            refine ⟨Or.inr rfl, rfl, fun h => by simp [errOutcome] at h,
              fun _ => ⟨rfl, rfl, rfl, ⟨_, rfl, ?_⟩⟩, fun js hjs => ?_⟩
            · by_cases he : e = "" <;> simp [he]
            · have hjs : (some ⟨"failed", "failed",
                  some (if e = "" then "Unknown error" else e),
                  env.priorAttempts + 1, some env.elapsedMs⟩ :
                  Option JobState) = some js := hjs
              obtain rfl := Option.some_inj.mp hjs
              exact ⟨fun h => by simp [errOutcome] at h,
                fun _ => ⟨rfl, rfl, rfl, rfl⟩⟩

theorem claimC4_witness :
    (executeGodMode envShort false).phase = Phase.completed ∨
    (executeGodMode envShort false).phase = Phase.failed :=
  (claimC4_terminal_contract envShort false).1

/-! ## Claim C6: configuration guard clauses -/

/-- **C6, counterexample.**  A run with no AI key configured does not
always fail with `'No AI API key configured'`: when no target resolves
either, the target guard fires first with `'No pages to optimize'`. -/
theorem claimC6_counterexample :
    hasRequiredKeys envGuard = false ∧
    (executeGodMode envGuard false).result.error = some "No pages to optimize" ∧
    some "No pages to optimize" ≠ some "No AI API key configured" :=
  ⟨by decide, by decide, by decide⟩

/-- **C6, amended.**  Once a target is resolved, a run with no
content-generation credential fails before any phase starts with
`'No AI API key configured'` (and with a key but no remote-store URL,
with `'WordPress URL not configured'`); each guard failure
short-circuits without touching the JobStateStore at all. -/
theorem claimC6_amended : ∀ (env : Env) (tok : Bool),
    (resolveTargetId env ≠ "" → hasRequiredKeys env = false →
      (executeGodMode env tok).result =
        { success := false, score := 0, wordCount := 0,
          error := some "No AI API key configured" } ∧
      (executeGodMode env tok).jobState = none ∧
      (executeGodMode env tok).storePhaseWrites = [] ∧
      (executeGodMode env tok).phase = Phase.failed) ∧
    (resolveTargetId env ≠ "" → hasRequiredKeys env = true → env.wpUrl = "" →
      (executeGodMode env tok).result =
        { success := false, score := 0, wordCount := 0,
          error := some "WordPress URL not configured" } ∧
      (executeGodMode env tok).jobState = none ∧
      (executeGodMode env tok).storePhaseWrites = [] ∧
      (executeGodMode env tok).phase = Phase.failed) := by
  intro env tok
  constructor
  · intro ht hk
    simp only [executeGodMode]
    rw [if_neg ht, if_pos (by simp [hk])]
    exact ⟨rfl, rfl, rfl, rfl⟩
  · intro ht hk hu
    simp only [executeGodMode]
    rw [if_neg ht, if_neg (by simp [hk]), if_pos hu]
    exact ⟨rfl, rfl, rfl, rfl⟩

theorem claimC6_witness :
    (executeGodMode envNoKey false).result =
      { success := false, score := 0, wordCount := 0,
        error := some "No AI API key configured" } ∧
    (executeGodMode envNoKey false).jobState = none :=
  ⟨((claimC6_amended envNoKey false).1 (by decide) (by decide)).1,
   ((claimC6_amended envNoKey false).1 (by decide) (by decide)).2.1⟩

/-! ## Claim C7: cancellation-flag independence -/

/-- **C7, confirmed.**  The run's outcome — return value, emitted phase
sequence, job-store writes — does not depend on the state of the
cancellation flag when the run starts, and the flag is reset to `false`
at the start of every invocation (the source never reads it during the
run). -/
theorem claimC7_cancellation_independence : ∀ (env : Env) (t₁ t₂ : Bool),
    executeGodMode env t₁ = executeGodMode env t₂ ∧
    (executeGodMode env t₁).token = false := by
  intro env t₁ t₂
  refine ⟨rfl, ?_⟩
  rcases hpb : phaseBody env with ⟨ps, ss, res⟩
  simp only [executeGodMode, hpb]
  split_ifs <;> first | rfl | (cases res <;> rfl)

/-! ## Claim C9: publish decision table -/

/-- **C9, confirmed.**  With a resolved entity id the update path is
taken and the preserved categories/tags/featured media are reapplied
exactly when the corresponding preservation flag is enabled and the
preserved value is non-empty; with no entity id the create path is
taken, publishing with the generated slug; and the outcome of the
subsequent metadata-update call never affects the run's result. -/
theorem claimC9_publish_paths :
    ∀ (env : Env) (contract : Contract) (pres : Preservation),
    (∀ pid : Nat, pid ≠ 0 →
      publishCall env pid = env.updatePost ∧
      (buildPublishData env contract pres pid).slug = none ∧
      ((buildPublishData env contract pres pid).categories =
          some pres.originalCategories ↔
        env.preserveCategories = true ∧ pres.originalCategories ≠ []) ∧
      ((buildPublishData env contract pres pid).categories = none ∨
        (buildPublishData env contract pres pid).categories =
          some pres.originalCategories) ∧
      ((buildPublishData env contract pres pid).tags = some pres.originalTags ↔
        env.preserveTags = true ∧ pres.originalTags ≠ []) ∧
      ((buildPublishData env contract pres pid).tags = none ∨
        (buildPublishData env contract pres pid).tags = some pres.originalTags) ∧
      ((buildPublishData env contract pres pid).featured_media =
          some pres.featuredImageId ↔
        env.preserveFeaturedImage = true ∧ pres.featuredImageId ≠ 0) ∧
      ((buildPublishData env contract pres pid).featured_media = none ∨
        (buildPublishData env contract pres pid).featured_media =
          some pres.featuredImageId)) ∧
    (publishCall env 0 = env.createPost ∧
      (buildPublishData env contract pres 0).slug = some contract.slug ∧
      (buildPublishData env contract pres 0).categories = none ∧
      (buildPublishData env contract pres 0).tags = none ∧
      (buildPublishData env contract pres 0).featured_media = none) ∧
    (∀ (m₁ m₂ : Except String Unit) (tok : Bool),
      executeGodMode { env with updateMeta := m₁ } tok =
        executeGodMode { env with updateMeta := m₂ } tok) := by
  intro env contract pres
  refine ⟨?_, ?_, ?_⟩
  · intro pid hpid
    have hb : (pid != 0) = true := by simpa using hpid
    simp only [publishCall, buildPublishData, basePublishData, hb, if_true]
    refine ⟨trivial, trivial, ?_, ?_, ?_, ?_, ?_, ?_⟩
    · split_ifs with h <;> simp_all [List.isEmpty_iff]
    · split_ifs with h <;> simp
    · split_ifs with h <;> simp_all [List.isEmpty_iff]
    · split_ifs with h <;> simp
    · split_ifs with h <;> simp_all
    · split_ifs with h <;> simp
  · simp [publishCall, buildPublishData, basePublishData]
  · intro m₁ m₂ tok
    cases env
    rfl

theorem claimC9_witness :
    publishCall envBase 7 = envBase.updatePost ∧
    (buildPublishData envBase shortSyn.contract emptyPreservation 7).slug = none :=
  ⟨((claimC9_publish_paths envBase shortSyn.contract emptyPreservation).1 7
      (by decide)).1,
   ((claimC9_publish_paths envBase shortSyn.contract emptyPreservation).1 7
      (by decide)).2.1⟩

/-! ## Claim C3: bulk success/failure classification and aggregates -/

/-- Word count contributed by one settled job. -/
def jobWords : JobRace → Nat
  | .finished r => r.wordCount
  | .timedOut => 0

/-- Score contributed by one settled job. -/
def jobScore : JobRace → ℤ
  | .finished r => r.score
  | .timedOut => 0

lemma stepAggregates_pos (a : BulkAggregates) (j : JobRace)
    (h : countsCompleted j = true) :
    stepAggregates a j =
      { a with completed := a.completed + 1,
               totalWords := a.totalWords + jobWords j,
               totalScore := a.totalScore + jobScore j } := by
  cases j with
  | timedOut => simp [countsCompleted] at h
  | finished r =>
      simp only [countsCompleted] at h
      simp [stepAggregates, classifyJob, h, jobWords, jobScore]

lemma stepAggregates_neg (a : BulkAggregates) (j : JobRace)
    (h : countsCompleted j = false) :
    stepAggregates a j = { a with failed := a.failed + 1 } := by
  cases j with
  | timedOut => simp [stepAggregates, classifyJob]
  | finished r =>
      simp only [countsCompleted] at h
      simp [stepAggregates, classifyJob, h]

lemma foldl_stepAggregates :
    ∀ (js : List JobRace) (a : BulkAggregates),
      js.foldl stepAggregates a =
        { completed := a.completed + (js.filter countsCompleted).length,
          failed := a.failed + (js.filter fun j => !countsCompleted j).length,
          totalWords :=
            a.totalWords + ((js.filter countsCompleted).map jobWords).sum,
          totalScore :=
            a.totalScore + ((js.filter countsCompleted).map jobScore).sum } := by
  intro js
  induction js with
  | nil => intro a; simp
  | cons j js ih =>
      intro a
      rw [List.foldl_cons]
      rcases hc : countsCompleted j with _ | _
      · rw [stepAggregates_neg a j hc, ih]
        simp [List.filter_cons, hc, BulkAggregates.mk.injEq]
        try omega
      · rw [stepAggregates_pos a j hc, ih]
        simp [List.filter_cons, hc, BulkAggregates.mk.injEq]
        try constructor
        all_goals try constructor
        all_goals omega

/-- **C3, confirmed.**  In bulk mode a job is counted in the
`completed` aggregate iff the orchestrator returned `success = true`
with `score ≥ 50`; a job with `success = true` but `score < 50` is
recorded as failed with reason `'Quality check failed'` (the success
result carries no error message of its own); and
`totalWords`/`totalScore` — hence `avgScore` — aggregate only over the
jobs counted as completed. -/
theorem claimC3_bulk_classification : ∀ (js : List JobRace),
    (runBulkAggregation js).completed = (js.filter countsCompleted).length ∧
    (runBulkAggregation js).failed =
      (js.filter fun j => !countsCompleted j).length ∧
    (runBulkAggregation js).totalWords =
      ((js.filter countsCompleted).map jobWords).sum ∧
    (runBulkAggregation js).totalScore =
      ((js.filter countsCompleted).map jobScore).sum ∧
    finalAvgScore js =
      (if 0 < (js.filter countsCompleted).length then
        mathRoundDiv ((js.filter countsCompleted).map jobScore).sum
          ((js.filter countsCompleted).length : ℤ)
      else 0) ∧
    (∀ r : GodModeResult,
      countsCompleted (JobRace.finished r) = (r.success && decide (50 ≤ r.score))) ∧
    (∀ (env : Env) (tok : Bool),
      (executeGodMode env tok).result.success = true →
      (executeGodMode env tok).result.score < 50 →
      classifyJob (.finished (executeGodMode env tok).result) =
        .failedJob "Quality check failed") := by
  intro js
  have h := foldl_stepAggregates js ⟨0, 0, 0, 0⟩
  rw [runBulkAggregation, finalAvgScore, runBulkAggregation, h]
  refine ⟨by simp, by simp, by simp, by simp, by simp, fun r => rfl, ?_⟩
  intro env tok hsucc hscore
  have herr := executeGodMode_success_error_none env tok hsucc
  rw [classifyJob]
  rw [if_neg (by simp [hsucc, hscore, not_le])]
  rw [jobFailReason, herr]

/-- The spec's own batch scenario (5 jobs, every orchestrator call
succeeding with score 80 and 4200 words) plus a quality-gated job:
a run that succeeds with score 0 is classified
`failed  'Quality check failed'` in the batch aggregates. -/
theorem claimC3_witness :
    (runBulkAggregation (List.replicate 5
      (JobRace.finished { success := true, score := 80, wordCount := 4200,
                          error := none }))).completed = 5 ∧
    (runBulkAggregation (List.replicate 5
      (JobRace.finished { success := true, score := 80, wordCount := 4200,
                          error := none }))).failed = 0 ∧
    (runBulkAggregation (List.replicate 5
      (JobRace.finished { success := true, score := 80, wordCount := 4200,
                          error := none }))).totalWords = 21000 ∧
    finalAvgScore (List.replicate 5
      (JobRace.finished { success := true, score := 80, wordCount := 4200,
                          error := none })) = 80 ∧
    classifyJob (.finished (executeGodMode envLowScore false).result) =
      .failedJob "Quality check failed" :=
  ⟨by decide, by decide, by decide, by decide,
   (claimC3_bulk_classification []).2.2.2.2.2.2 envLowScore false
     envLowScore_run.1 (by rw [envLowScore_run.2]; decide)⟩

end WPOptimizer
